import Mathlib

/-!
Verification development for the OpenVibe gateway (Go sources).

Shallow embedding of:
* the Redis-backed replay buffer (`hub/internal/buffer`),
* the Hub tunnel manager's agent registry (`hub/internal/tunnel/manager.go`),
* the Agent's port pool and project manager (`agent/internal/project`),
* the Agent tunnel client's reconnect loop (`agent/internal/tunnel/client.go`),
* the Hub client server's message dispatch and handlers
  (`hub/internal/server/server.go`).

Go maps keyed by strings or ints are embedded as association lists, machine
integers as `Int`, opaque JSON blobs as `String`, and external effects
(Redis, Docker, WebSocket transports) as explicit state or parameters.
-/

namespace OpenVibe

/-! ## Replay buffer (`hub/internal/buffer/redis.go`)

`Message` mirrors the Go `buffer.Message` struct; the payload blob is kept
opaque.  `RedisState` models the Redis keyspace used by `RedisBuffer`: per
session a counter (the `...:msgid` key, incremented by `INCR`) and a sorted
set (the `...:messages` key) holding entries scored by the assigned id.
TTL expiry is not modelled; all properties below are "within TTL". -/

structure BufMessage where
  id : Int
  mtype : String
  requestId : String
  payload : String
  timestamp : Int
  deriving Repr, DecidableEq

structure RedisState where
  counter : String → Int
  entries : String → List (Int × BufMessage)

/-- The empty Redis keyspace: every counter reads 0 (`GET` on a missing key),
every sorted set is empty. -/
def RedisState.empty : RedisState :=
  { counter := fun _ => 0, entries := fun _ => [] }

/-- `ZADD` on a sorted set: insert the entry at its score-ordered position
(ties go after existing entries, matching Redis score-then-member order for
the increasing-score inserts produced by `Push`). -/
def zinsert (e : Int × BufMessage) : List (Int × BufMessage) → List (Int × BufMessage)
  | [] => [e]
  | x :: xs => if e.1 < x.1 then e :: x :: xs else x :: zinsert e xs

/-- `RedisBuffer.Push`: `INCR` the per-session counter to obtain the next id,
stamp the message with that id (and with `now` when its timestamp is zero),
and `ZADD` it to the session's sorted set with the id as score.
Returns the assigned id. -/
def Push (s : RedisState) (sessionID : String) (msg : BufMessage) (now : Int) :
    Int × RedisState :=
  let id := s.counter sessionID + 1
  let stamped := { msg with
    id := id
    timestamp := if msg.timestamp = 0 then now else msg.timestamp }
  (id,
    { counter := fun k => if k = sessionID then id else s.counter k
      entries := fun k =>
        if k = sessionID then zinsert (id, stamped) (s.entries k) else s.entries k })

/-- `RedisBuffer.GetSince`: `ZRANGEBYSCORE key (afterID +inf` — all entries
with score strictly greater than `afterID`, in score order (the stored list
is kept score-sorted by `zinsert`). -/
def GetSince (s : RedisState) (sessionID : String) (afterID : Int) : List BufMessage :=
  ((s.entries sessionID).filter (fun e => afterID < e.1)).map Prod.snd

/-- `RedisBuffer.GetLatestID`: read the per-session counter (0 when absent). -/
def GetLatestID (s : RedisState) (sessionID : String) : Int :=
  s.counter sessionID

/-- The message as stored by `Push` when the counter-assigned id is `id`. -/
def stampMsg (id : Int) (now : Int) (msg : BufMessage) : BufMessage :=
  { msg with id := id, timestamp := if msg.timestamp = 0 then now else msg.timestamp }

/-- Push a list of messages in order into one session, collecting the
(id, stored message) pairs in push order. -/
def pushAll (s : RedisState) (sessionID : String) (now : Int) :
    List BufMessage → List (Int × BufMessage) × RedisState
  | [] => ([], s)
  | m :: ms =>
    let r := Push s sessionID m now
    let rest := pushAll r.2 sessionID now ms
    ((r.1, stampMsg r.1 now m) :: rest.1, rest.2)

/-- Scores in the buffer never exceed the session counter.  This holds of the
empty keyspace and is preserved by `Push`; it can only break when Redis
expires the `msgid` key while messages survive, which is outside the model. -/
def CounterBound (s : RedisState) (sessionID : String) : Prop :=
  ∀ e ∈ s.entries sessionID, e.1 ≤ s.counter sessionID

/-- The messages of `msgs` as stored by successive pushes starting from
counter value `c`: the j-th message is stamped with id `c + 1 + j`. -/
def stampFrom (c : Int) (now : Int) : List BufMessage → List BufMessage
  | [] => []
  | m :: ms => stampMsg (c + 1) now m :: stampFrom (c + 1) now ms

/-- Entries carry successive ids starting at `b`. -/
inductive IdsFrom : Int → List (Int × BufMessage) → Prop
  | nil (b : Int) : IdsFrom b []
  | cons {b : Int} {e : Int × BufMessage} {l : List (Int × BufMessage)}
      (he : e.1 = b) (hl : IdsFrom (b + 1) l) : IdsFrom b (e :: l)

theorem IdsFrom.le_of_mem {b : Int} {l : List (Int × BufMessage)}
    (h : IdsFrom b l) : ∀ e ∈ l, b ≤ e.1 := by
  induction h with
  | nil => intro e he; cases he
  | cons he hl ih =>
    intro e hmem
    rcases List.mem_cons.mp hmem with h1 | h2
    · subst h1; omega
    · have := ih e h2; omega

theorem zinsert_append {e : Int × BufMessage} {l : List (Int × BufMessage)}
    (h : ∀ x ∈ l, ¬ e.1 < x.1) : zinsert e l = l ++ [e] := by
  induction l with
  | nil => rfl
  | cons x xs ih =>
    simp only [zinsert]
    rw [if_neg (h x (List.mem_cons_self x xs))]
    rw [ih (fun y hy => h y (List.mem_cons_of_mem x hy))]
    rfl

/-- Core characterisation of `pushAll`: starting from a state whose stored
scores are bounded by the counter, pushing `msgs` appends the stamped
messages, with successive ids starting at `counter + 1`, and advances the
counter by `msgs.length`. -/
theorem pushAll_spec (s : RedisState) (sessionID : String) (now : Int)
    (msgs : List BufMessage) (hinv : CounterBound s sessionID) :
    (pushAll s sessionID now msgs).2.counter sessionID
        = s.counter sessionID + msgs.length ∧
    (pushAll s sessionID now msgs).2.entries sessionID
        = s.entries sessionID ++ (pushAll s sessionID now msgs).1 ∧
    IdsFrom (s.counter sessionID + 1) (pushAll s sessionID now msgs).1 ∧
    (pushAll s sessionID now msgs).1.map Prod.snd
        = stampFrom (s.counter sessionID) now msgs := by
  induction msgs generalizing s with
  | nil =>
    exact ⟨by simp [pushAll], by simp [pushAll], IdsFrom.nil _, by simp [pushAll, stampFrom]⟩
  | cons m ms ih =>
    have hc : (Push s sessionID m now).1 = s.counter sessionID + 1 := rfl
    set s1 := (Push s sessionID m now).2 with hs1
    have hc1 : s1.counter sessionID = s.counter sessionID + 1 := by simp [hs1, Push]
    have hent1 : s1.entries sessionID
        = s.entries sessionID ++ [(s.counter sessionID + 1,
            stampMsg (s.counter sessionID + 1) now m)] := by
      simp only [hs1, Push, if_pos rfl]
      exact zinsert_append (fun x hx => by have := hinv x hx; simp; omega)
    have hinv1 : CounterBound s1 sessionID := by
      intro e he
      rw [hent1] at he
      rw [hc1]
      rcases List.mem_append.mp he with h1 | h2
      · have h3 := hinv e h1; omega
      · rcases List.mem_singleton.mp h2 with rfl; simp
    obtain ⟨ihc, ihe, ihids, ihmap⟩ := ih s1 hinv1
    have hunfold : pushAll s sessionID now (m :: ms)
        = ((s.counter sessionID + 1, stampMsg (s.counter sessionID + 1) now m)
              :: (pushAll s1 sessionID now ms).1,
           (pushAll s1 sessionID now ms).2) := rfl
    refine ⟨?_, ?_, ?_, ?_⟩
    · rw [hunfold]; simp only [List.length_cons]; rw [ihc, hc1]; push_cast; ring
    · rw [hunfold]; simp only []
      rw [ihe, hent1, List.append_assoc]
      rfl
    · rw [hunfold]
      exact IdsFrom.cons rfl (by rw [← hc1]; simpa using ihids)
    · rw [hunfold]; simp only [List.map_cons]
      rw [ihmap, hc1]
      rfl

theorem IdsFrom.get_eq {b : Int} {l : List (Int × BufMessage)} (h : IdsFrom b l)
    (k : Nat) (hk : k < l.length) : (l.get ⟨k, hk⟩).1 = b + k := by
  induction h generalizing k with
  | nil => cases hk
  | cons he hl ih =>
    cases k with
    | zero => simpa using he
    | succ k' =>
      have := ih k' (by simpa using hk)
      simp only [List.get_eq_getElem, List.getElem_cons_succ] at this ⊢
      omega

theorem IdsFrom.pairwise_lt {b : Int} {l : List (Int × BufMessage)}
    (h : IdsFrom b l) : (l.map Prod.fst).Pairwise (· < ·) := by
  induction h with
  | nil => exact List.Pairwise.nil
  | cons he hl ih =>
    refine List.pairwise_cons.mpr ⟨?_, ih⟩
    intro a ha
    simp only [List.mem_map] at ha
    obtain ⟨e, he', rfl⟩ := ha
    have := hl.le_of_mem e he'
    omega

theorem IdsFrom.filter_drop {b : Int} {l : List (Int × BufMessage)}
    (h : IdsFrom b l) (k : Nat) (hk : k < l.length) :
    l.filter (fun e => decide (b + k < e.1)) = l.drop (k + 1) := by
  induction h generalizing k with
  | nil => cases hk
  | @cons b' e l' he hl ih =>
    cases k with
    | zero =>
      simp only [List.filter_cons]
      rw [if_neg (by simp [he])]
      simp only [Int.add_zero] at *
      rw [List.drop_one]
      have : ∀ x ∈ l', b' < x.1 := fun x hx => by
        have := hl.le_of_mem x hx; omega
      rw [List.filter_eq_self.mpr (fun x hx => by simpa using this x hx)]
      simp
    | succ k' =>
      simp only [List.filter_cons]
      rw [if_neg (by simp [he]; omega)]
      have hk' : k' < l'.length := by simpa using hk
      have := ih k' hk'
      have harg : (fun x : Int × BufMessage => decide (b' + (k' + 1 : Nat) < x.1))
          = (fun x : Int × BufMessage => decide (b' + 1 + (k' : Nat) < x.1)) := by
        funext x; congr 1; push_cast; ring_nf
      rw [harg, this]
      rfl

theorem pushAll_length (s : RedisState) (sessionID : String) (now : Int)
    (msgs : List BufMessage) :
    (pushAll s sessionID now msgs).1.length = msgs.length := by
  induction msgs generalizing s with
  | nil => rfl
  | cons m ms ih => simpa [pushAll] using ih (Push s sessionID m now).2

/-- C1: Replay buffer correctness.  From any state whose stored scores are
bounded by the session counter (true of all states reachable by pushes, and
of the empty keyspace), a sequence of pushes `m1..mn` to a session is
assigned strictly increasing ids, and `GetSince` on the id assigned to `mk`
returns exactly the stored forms of `m(k+1)..mn`, in id order; in particular
for `k = n` (the last push, which returned id K) the tail is empty. -/
theorem C1_replay_push_getSince (s0 : RedisState) (sessionID : String) (now : Int)
    (msgs : List BufMessage) (k : Nat) (hinv : CounterBound s0 sessionID)
    (hk : k < (pushAll s0 sessionID now msgs).1.length) :
    ((pushAll s0 sessionID now msgs).1.map Prod.fst).Pairwise (· < ·) ∧
    GetSince (pushAll s0 sessionID now msgs).2 sessionID
        (((pushAll s0 sessionID now msgs).1.get ⟨k, hk⟩).1)
      = (stampFrom (s0.counter sessionID) now msgs).drop (k + 1) := by
  obtain ⟨hcnt, hent, hids, hmap⟩ := pushAll_spec s0 sessionID now msgs hinv
  refine ⟨hids.pairwise_lt, ?_⟩
  have hid := hids.get_eq k hk
  rw [GetSince, hent, List.filter_append, hid]
  have hold : (s0.entries sessionID).filter
      (fun e => decide (s0.counter sessionID + 1 + (k : Int) < e.1)) = [] := by
    apply List.filter_eq_nil_iff.mpr
    intro e he
    have := hinv e he
    simp only [decide_eq_true_eq]
    omega
  rw [hold, List.nil_append, hids.filter_drop k hk, ← hmap, ← List.map_drop]

/-- Witness for C1 at a concrete input: three pushes into the empty keyspace,
`k = 1` (so `GetSince` on the second assigned id returns only the third
message). -/
theorem C1_replay_push_getSince_witness :
    CounterBound RedisState.empty "ses_a" ∧
    (((pushAll RedisState.empty "ses_a" 7
        [⟨0, "stream", "r1", "pa", 0⟩, ⟨0, "stream", "r1", "pb", 0⟩,
         ⟨0, "stream.end", "r1", "", 0⟩]).1.map Prod.fst).Pairwise (· < ·) ∧
      GetSince (pushAll RedisState.empty "ses_a" 7
        [⟨0, "stream", "r1", "pa", 0⟩, ⟨0, "stream", "r1", "pb", 0⟩,
         ⟨0, "stream.end", "r1", "", 0⟩]).2 "ses_a"
          (((pushAll RedisState.empty "ses_a" 7
        [⟨0, "stream", "r1", "pa", 0⟩, ⟨0, "stream", "r1", "pb", 0⟩,
         ⟨0, "stream.end", "r1", "", 0⟩]).1.get ⟨1, by
            rw [pushAll_length]; decide⟩).1)
        = (stampFrom (RedisState.empty.counter "ses_a") 7
            [⟨0, "stream", "r1", "pa", 0⟩, ⟨0, "stream", "r1", "pb", 0⟩,
             ⟨0, "stream.end", "r1", "", 0⟩]).drop 2) := by
  have hinv : CounterBound RedisState.empty "ses_a" := by
    intro e he
    exact absurd he (List.not_mem_nil e)
  exact ⟨hinv, C1_replay_push_getSince RedisState.empty "ses_a" 7 _ 1 hinv
    (by rw [pushAll_length]; decide)⟩

/-! ## Hub tunnel manager: agent registry (`hub/internal/tunnel/manager.go`)

The registry is the Go map `Manager.agents` (embedded as a function
`String → Option Nat` from agent id to transport id) guarded by `Manager.mu`.
Transports are identified by `Nat`; `closed` records every transport on which
`Conn.Close()` has been called.

Two state transitions act on the registry:
* `registerAgent` — the tail of `HandleAgentWebSocket` after a successful
  token check (lines 139-146): under the lock, close the existing holder's
  transport if any, then install the new agent;
* `readPumpCleanup` — the `defer` block of `readPump` (lines 172-180), run
  when a connection's reader exits: under the lock,
  `delete(m.agents, agent.ID)` (unconditionally, keyed only by the id), then
  close that reader's own transport. -/

structure TunnelState where
  agents : String → Option Nat
  closed : List Nat

def TunnelState.empty : TunnelState :=
  { agents := fun _ => none, closed := [] }

def registerAgent (st : TunnelState) (agentID : String) (connID : Nat) : TunnelState :=
  { agents := fun k => if k = agentID then some connID else st.agents k
    closed :=
      match st.agents agentID with
      | some old => old :: st.closed
      | none => st.closed }

def readPumpCleanup (st : TunnelState) (agentID : String) (connID : Nat) : TunnelState :=
  { agents := fun k => if k = agentID then none else st.agents k
    closed := connID :: st.closed }

/-- `Manager.Forward` looks the agent up in the registry and enqueues the
request frame on that agent's transport; `none` is `ErrAgentNotFound`. -/
def forwardTarget (st : TunnelState) (agentID : String) : Option Nat :=
  st.agents agentID

/-- C2, evaluated at the failing input.  Register agent "dev1" on transport 1,
then register "dev1" again on transport 2: the registry does displace
(transport 1 is closed and "dev1" maps to transport 2).  But when the
displaced connection's reader exits and runs its deferred cleanup, the
cleanup deletes the map entry keyed only by the agent id — removing the NEW
registration — so a `Forward` issued afterwards fails `ErrAgentNotFound`
instead of being delivered on transport 2.  This contradicts the claim (and
spec scenario S6); the registration path's careful close-before-install shows
the unconditional delete in `readPump`'s cleanup is a slip. -/
theorem C2_displacement_cleanup_eval :
    (registerAgent (registerAgent TunnelState.empty "dev1" 1) "dev1" 2).agents "dev1"
        = some 2 ∧
    1 ∈ (registerAgent (registerAgent TunnelState.empty "dev1" 1) "dev1" 2).closed ∧
    forwardTarget
        (readPumpCleanup
          (registerAgent (registerAgent TunnelState.empty "dev1" 1) "dev1" 2) "dev1" 1)
        "dev1" = none := by
  refine ⟨rfl, ?_, rfl⟩
  simp [registerAgent, TunnelState.empty]

/-! ## Agent tunnel client: reconnect loop (`agent/internal/tunnel/client.go`)

`connectAndRun` is embedded over an environment describing one connection
attempt; its return value models the Go `error` (`none` = `nil`).  Note the
source's `return err` on the two registration-failure paths returns the `nil`
error left over from the successful `ReadJSON` — this is modelled faithfully
below as `none`. -/

structure AttemptEnv where
  dialOk : Bool             -- DialContext / WriteJSON / ReadJSON all succeed
  firstFrameType : String   -- type of the first frame read from the Hub
  regSuccess : Bool         -- RegisteredPayload.Success
  readLoopErr : String      -- the read error that eventually ends readLoop
  deriving Repr, DecidableEq

def connectAndRun (env : AttemptEnv) : Option String :=
  if !env.dialOk then some "dial error"
  else if env.firstFrameType ≠ "agent.registered" then none
  else if !env.regSuccess then none
  else some env.readLoopErr

/-- The attempt reached the `ready` state (registration confirmed with
`success=true`); the source then resets `reconnectDelay` to one second. -/
def reachedReady (env : AttemptEnv) : Bool :=
  env.dialOk && env.firstFrameType == "agent.registered" && env.regSuccess

/-- One iteration of `Client.Run` at stored reconnect delay `d` (seconds):
returns the stored delay after the iteration and the wait performed before
the next dial (`none` = redial immediately). -/
def runStep (d : Nat) (env : AttemptEnv) : Nat × Option Nat :=
  let dIn := if reachedReady env then 1 else d
  match connectAndRun env with
  | some _ => (min (dIn * 2) 30, some dIn)
  | none => (1, none)

/-- C7, evaluated at the failing inputs.  A dial failure at stored delay 4s
waits 4s and doubles to 8s (and caps at 30s), as the claim says; but an
attempt rejected by the Hub (`success=false`) or answered with a wrong first
frame makes `connectAndRun` return `nil` (the source's `return err` returns
the nil error of the successful read), so `Run` treats it as a clean session:
the delay resets to 1s and the client redials immediately instead of
doubling.  The "Registration failed" log line on that same path shows the
nil return is a slip. -/
theorem C7_backoff_eval :
    runStep 4 ⟨false, "", true, ""⟩ = (8, some 4) ∧
    runStep 20 ⟨false, "", true, ""⟩ = (30, some 20) ∧
    connectAndRun ⟨true, "agent.registered", false, ""⟩ = none ∧
    reachedReady ⟨true, "agent.registered", false, ""⟩ = false ∧
    runStep 4 ⟨true, "agent.registered", false, ""⟩ = (1, none) ∧
    runStep 4 ⟨true, "pong", true, ""⟩ = (1, none) := by
  refine ⟨?_, ?_, ?_, ?_, ?_, ?_⟩ <;> rfl

/-! ## Port pool (`agent/internal/project/portpool.go`)

The Go map `portToProject` is embedded as an association list (`used`).
`lookupPort` is the map read `p.portToProject[port]`; `findByPath` is the
`for port, path := range` scan for an existing reservation (deterministic
here because, with only `Acquire`/`AcquireAvailable`/`Release`, each path
holds at most one port); `firstFreeAux` is the `for port := minPort;
port <= maxPort` scan. -/

inductive PoolErr
  | noAvailablePort   -- ErrNoAvailablePort
  | portNotInUse      -- ErrPortNotInUse
  | allPortsInUse     -- ErrAllPortsInUse
  deriving Repr, DecidableEq

structure PortPool where
  minPort : Int
  maxPort : Int
  used : List (Int × String)
  deriving Repr, DecidableEq

def NewPortPool (minPort maxPort : Int) : PortPool :=
  { minPort := minPort, maxPort := maxPort, used := [] }

def lookupPort : List (Int × String) → Int → Option String
  | [], _ => none
  | e :: rest, port => if e.1 = port then some e.2 else lookupPort rest port

def findByPath : List (Int × String) → String → Option Int
  | [], _ => none
  | e :: rest, path => if e.2 = path then some e.1 else findByPath rest path

def firstFreeAux (used : List (Int × String)) (lo : Int) : Nat → Option Int
  | 0 => none
  | n + 1 =>
    if (lookupPort used lo).isSome then firstFreeAux used (lo + 1) n else some lo

/-- The checker-skipping variant of the scan used by `AcquireAvailable`:
a candidate is skipped when reserved or when `checker.IsPortInUse` says some
other process occupies it. -/
def firstAvailAux (used : List (Int × String)) (checker : Int → Bool) (lo : Int) :
    Nat → Option Int
  | 0 => none
  | n + 1 =>
    if (lookupPort used lo).isSome then firstAvailAux used checker (lo + 1) n
    else if checker lo then firstAvailAux used checker (lo + 1) n
    else some lo

/-- Number of candidate ports in `[minPort, maxPort]`. -/
def poolSpan (p : PortPool) : Nat :=
  (p.maxPort - p.minPort + 1).toNat

def Acquire (p : PortPool) (projectPath : String) : Except PoolErr (Int × PortPool) :=
  match findByPath p.used projectPath with
  | some port => .ok (port, p)
  | none =>
    match firstFreeAux p.used p.minPort (poolSpan p) with
    | some port => .ok (port, { p with used := (port, projectPath) :: p.used })
    | none => .error .noAvailablePort

def AcquireAvailable (p : PortPool) (projectPath : String) (checker : Int → Bool) :
    Except PoolErr (Int × PortPool) :=
  match findByPath p.used projectPath with
  | some port => .ok (port, p)
  | none =>
    match firstAvailAux p.used checker p.minPort (poolSpan p) with
    | some port => .ok (port, { p with used := (port, projectPath) :: p.used })
    | none => .error .allPortsInUse

def Release (p : PortPool) (port : Int) : Except PoolErr PortPool :=
  if (lookupPort p.used port).isSome then
    .ok { p with used := p.used.filter (fun e => e.1 ≠ port) }
  else .error .portNotInUse

/-- States reachable from a fresh pool by any interleaving of successful
`Acquire`, `AcquireAvailable` and `Release` calls (failed calls leave the
pool unchanged). -/
inductive PoolReached : PortPool → Prop
  | init (minPort maxPort : Int) : PoolReached (NewPortPool minPort maxPort)
  | acquire {p q : PortPool} {path : String} {port : Int} :
      PoolReached p → Acquire p path = .ok (port, q) → PoolReached q
  | acquireAvailable {p q : PortPool} {path : String} {port : Int}
      {checker : Int → Bool} :
      PoolReached p → AcquireAvailable p path checker = .ok (port, q) → PoolReached q
  | release {p q : PortPool} {port : Int} :
      PoolReached p → Release p port = .ok q → PoolReached q

theorem lookupPort_eq_none_iff {used : List (Int × String)} {port : Int} :
    lookupPort used port = none ↔ ∀ e ∈ used, e.1 ≠ port := by
  induction used with
  | nil => simp [lookupPort]
  | cons e rest ih =>
    simp only [lookupPort]
    by_cases h : e.1 = port
    · simp [h]
    · simp only [if_neg h, ih, List.mem_cons]
      constructor
      · rintro hrest x (rfl | hx)
        · exact h
        · exact hrest x hx
      · intro hall x hx
        exact hall x (Or.inr hx)

theorem findByPath_eq_none_iff {used : List (Int × String)} {path : String} :
    findByPath used path = none ↔ ∀ e ∈ used, e.2 ≠ path := by
  induction used with
  | nil => simp [findByPath]
  | cons e rest ih =>
    simp only [findByPath]
    by_cases h : e.2 = path
    · simp [h]
    · simp only [if_neg h, ih, List.mem_cons]
      constructor
      · rintro hrest x (rfl | hx)
        · exact h
        · exact hrest x hx
      · intro hall x hx
        exact hall x (Or.inr hx)

theorem findByPath_mem {used : List (Int × String)} {path : String} {port : Int}
    (h : findByPath used path = some port) : (port, path) ∈ used := by
  induction used with
  | nil => simp [findByPath] at h
  | cons e rest ih =>
    simp only [findByPath] at h
    by_cases he : e.2 = path
    · rw [if_pos he] at h
      obtain rfl := Option.some.injEq _ _ ▸ h
      have hpe : (e.1, path) = e := by
        obtain ⟨a, b⟩ := e
        simp only [Prod.mk.injEq, true_and]
        exact he.symm
      rw [hpe]
      exact List.mem_cons_self e rest
    · rw [if_neg he] at h
      exact List.mem_cons_of_mem e (ih h)

theorem lookupPort_isSome_of_mem {used : List (Int × String)} {e : Int × String}
    (h : e ∈ used) : (lookupPort used e.1).isSome := by
  induction used with
  | nil => cases h
  | cons x rest ih =>
    simp only [lookupPort]
    by_cases hx : x.1 = e.1
    · simp [hx]
    · rcases List.mem_cons.mp h with rfl | hmem
      · exact absurd rfl hx
      · simpa [hx] using ih hmem

theorem firstFreeAux_some {used : List (Int × String)} {lo port : Int} {n : Nat}
    (h : firstFreeAux used lo n = some port) :
    lookupPort used port = none ∧ lo ≤ port ∧ port < lo + n := by
  induction n generalizing lo with
  | zero => simp [firstFreeAux] at h
  | succ n ih =>
    simp only [firstFreeAux] at h
    by_cases hl : (lookupPort used lo).isSome
    · rw [if_pos hl] at h
      obtain ⟨h1, h2, h3⟩ := ih h
      exact ⟨h1, by omega, by omega⟩
    · rw [if_neg hl] at h
      obtain rfl := Option.some.injEq _ _ ▸ h
      refine ⟨Option.not_isSome_iff_eq_none.mp hl, le_refl _, by omega⟩

theorem firstFreeAux_none_iff {used : List (Int × String)} {lo : Int} {n : Nat} :
    firstFreeAux used lo n = none ↔
      ∀ i : Nat, i < n → (lookupPort used (lo + i)).isSome := by
  induction n generalizing lo with
  | zero => simp [firstFreeAux]
  | succ n ih =>
    simp only [firstFreeAux]
    by_cases hl : (lookupPort used lo).isSome
    · rw [if_pos hl, ih]
      constructor
      · intro hall i hi
        cases i with
        | zero => simpa using hl
        | succ j =>
          have := hall j (by omega)
          have harith : lo + 1 + (j : Int) = lo + ((j : Nat) + 1 : Nat) := by push_cast; ring
          rwa [harith] at this
      · intro hall i hi
        have := hall (i + 1) (by omega)
        have harith : lo + ((i : Nat) + 1 : Nat) = lo + 1 + (i : Int) := by push_cast; ring
        rwa [harith] at this
    · rw [if_neg hl]
      constructor
      · intro h; cases h
      · intro hall
        have := hall 0 (by omega)
        simp at this
        exact absurd this hl

theorem firstAvailAux_some {used : List (Int × String)} {checker : Int → Bool}
    {lo port : Int} {n : Nat} (h : firstAvailAux used checker lo n = some port) :
    lookupPort used port = none ∧ checker port = false ∧ lo ≤ port ∧ port < lo + n := by
  induction n generalizing lo with
  | zero => simp [firstAvailAux] at h
  | succ n ih =>
    simp only [firstAvailAux] at h
    by_cases hl : (lookupPort used lo).isSome
    · rw [if_pos hl] at h
      obtain ⟨h1, h2, h3, h4⟩ := ih h
      exact ⟨h1, h2, by omega, by omega⟩
    · rw [if_neg hl] at h
      by_cases hc : checker lo
      · rw [if_pos hc] at h
        obtain ⟨h1, h2, h3, h4⟩ := ih h
        exact ⟨h1, h2, by omega, by omega⟩
      · rw [if_neg hc] at h
        obtain rfl := Option.some.injEq _ _ ▸ h
        exact ⟨Option.not_isSome_iff_eq_none.mp hl, Bool.eq_false_iff.mpr hc,
          le_refl _, by omega⟩

theorem lookupPort_isSome_exists {used : List (Int × String)} {port : Int}
    (h : (lookupPort used port).isSome) : ∃ s, (port, s) ∈ used := by
  induction used with
  | nil => simp [lookupPort] at h
  | cons e rest ih =>
    simp only [lookupPort] at h
    by_cases he : e.1 = port
    · refine ⟨e.2, ?_⟩
      have : (port, e.2) = e := by
        obtain ⟨a, b⟩ := e
        simp only [Prod.mk.injEq, and_true]
        exact he.symm
      rw [this]
      exact List.mem_cons_self e rest
    · rw [if_neg he] at h
      obtain ⟨s, hs⟩ := ih h
      exact ⟨s, List.mem_cons_of_mem e hs⟩

/-- Pool invariant: at most one entry per port (map keys), at most one port
per path, and every reserved port lies in `[minPort, maxPort]`. -/
def PoolInv (p : PortPool) : Prop :=
  (p.used.map Prod.fst).Nodup ∧ (p.used.map Prod.snd).Nodup ∧
  ∀ e ∈ p.used, p.minPort ≤ e.1 ∧ e.1 ≤ p.maxPort

theorem poolInv_insert {p : PortPool} {path : String} {port : Int}
    (hinv : PoolInv p) (hfind : findByPath p.used path = none)
    (hfree : lookupPort p.used port = none)
    (hlo : p.minPort ≤ port) (hhi : port ≤ p.maxPort) :
    PoolInv { p with used := (port, path) :: p.used } := by
  obtain ⟨hkeys, hvals, hrange⟩ := hinv
  refine ⟨?_, ?_, ?_⟩
  · simp only [List.map_cons]
    refine List.nodup_cons.mpr ⟨?_, hkeys⟩
    intro hmem
    obtain ⟨e, he, heq⟩ := List.mem_map.mp hmem
    exact (lookupPort_eq_none_iff.mp hfree e he) heq
  · simp only [List.map_cons]
    refine List.nodup_cons.mpr ⟨?_, hvals⟩
    intro hmem
    obtain ⟨e, he, heq⟩ := List.mem_map.mp hmem
    exact (findByPath_eq_none_iff.mp hfind e he) heq
  · intro e he
    rcases List.mem_cons.mp he with rfl | hmem
    · exact ⟨hlo, hhi⟩
    · exact hrange e hmem

theorem poolInv_reached {p : PortPool} (hp : PoolReached p) : PoolInv p := by
  induction hp with
  | init lo hi => exact ⟨List.nodup_nil, List.nodup_nil, by intro e he; cases he⟩
  | @acquire p q path port hre hok ih =>
    unfold Acquire at hok
    rcases hfind : findByPath p.used path with _ | port0
    · rw [hfind] at hok
      rcases hfree : firstFreeAux p.used p.minPort (poolSpan p) with _ | fp
      · rw [hfree] at hok; cases hok
      · rw [hfree] at hok
        obtain ⟨hnone, hlo, hlt⟩ := firstFreeAux_some hfree
        have hspan : fp ≤ p.maxPort := by
          unfold poolSpan at hlt
          omega
        obtain ⟨rfl, rfl⟩ : fp = port ∧ { p with used := (fp, path) :: p.used } = q := by
          simpa using hok
        exact poolInv_insert ih hfind hnone hlo hspan
    · rw [hfind] at hok
      obtain ⟨rfl, rfl⟩ : port0 = port ∧ p = q := by simpa using hok
      exact ih
  | @acquireAvailable p q path port checker hre hok ih =>
    unfold AcquireAvailable at hok
    rcases hfind : findByPath p.used path with _ | port0
    · rw [hfind] at hok
      rcases hfree : firstAvailAux p.used checker p.minPort (poolSpan p) with _ | fp
      · rw [hfree] at hok; cases hok
      · rw [hfree] at hok
        obtain ⟨hnone, hchk, hlo, hlt⟩ := firstAvailAux_some hfree
        have hspan : fp ≤ p.maxPort := by
          unfold poolSpan at hlt
          omega
        obtain ⟨rfl, rfl⟩ : fp = port ∧ { p with used := (fp, path) :: p.used } = q := by
          simpa using hok
        exact poolInv_insert ih hfind hnone hlo hspan
    · rw [hfind] at hok
      obtain ⟨rfl, rfl⟩ : port0 = port ∧ p = q := by simpa using hok
      exact ih
  | @release p q port hre hok ih =>
    unfold Release at hok
    by_cases hl : (lookupPort p.used port).isSome
    · rw [if_pos hl] at hok
      obtain rfl : { p with used := p.used.filter (fun e => e.1 ≠ port) } = q := by
        simpa using hok
      obtain ⟨hkeys, hvals, hrange⟩ := ih
      have hsub : (p.used.filter (fun e => e.1 ≠ port)).Sublist p.used :=
        List.filter_sublist p.used
      refine ⟨(hsub.map Prod.fst).nodup hkeys, (hsub.map Prod.snd).nodup hvals, ?_⟩
      intro e he
      exact hrange e (hsub.mem he)
    · rw [if_neg hl] at hok; cases hok

/-- C3 counterexample: in the one-port pool `[1,1]`, after `Acquire "/a"`
every port of the range is reserved, yet a second `Acquire "/a"` succeeds
(returning the existing reservation) — refuting "Acquire fails if and only
if every port in `[minPort, maxPort]` is reserved" as literally stated
(the "if" direction fails when the requesting path already holds a port;
the claim's own idempotence clause forces this). -/
theorem C3_counterexample :
    PoolReached (PortPool.mk 1 1 [(1, "/a")]) ∧
    (∀ port : Int, 1 ≤ port → port ≤ 1 →
        (lookupPort (PortPool.mk 1 1 [(1, "/a")]).used port).isSome) ∧
    Acquire (PortPool.mk 1 1 [(1, "/a")]) "/a"
        = Except.ok (1, PortPool.mk 1 1 [(1, "/a")]) := by
  refine ⟨PoolReached.acquire (PoolReached.init 1 1) rfl, ?_, rfl⟩
  intro port h1 h2
  have : port = 1 := le_antisymm h2 h1
  subst this
  rfl

/-- C3 (amended): in every state reachable by any interleaving of
`Acquire` / `AcquireAvailable` / `Release`:
(1) the used-map holds at most one path per port and at most one port per
path; (2) after a successful `Release` of a port, that port is unreserved
and any subsequent `Acquire` succeeds (the freed port is acquirable again);
(3) `Acquire` fails (`NoAvailablePort`) iff every port in
`[minPort, maxPort]` is reserved AND the requesting path holds no
reservation; (4) if a path already holds a reservation, both `Acquire` and
`AcquireAvailable` return the existing port without changing the pool. -/
theorem C3_port_pool (p : PortPool) (hp : PoolReached p) :
    ((p.used.map Prod.fst).Nodup ∧ (p.used.map Prod.snd).Nodup) ∧
    (∀ port q, Release p port = Except.ok q →
        lookupPort q.used port = none ∧
        ∀ path, ∃ r, Acquire q path = Except.ok r) ∧
    (∀ path, Acquire p path = Except.error PoolErr.noAvailablePort ↔
        (findByPath p.used path = none ∧
         ∀ port : Int, p.minPort ≤ port → port ≤ p.maxPort →
           (lookupPort p.used port).isSome)) ∧
    (∀ path port, findByPath p.used path = some port →
        Acquire p path = Except.ok (port, p) ∧
        ∀ checker, AcquireAvailable p path checker = Except.ok (port, p)) := by
  obtain ⟨hkeys, hvals, hrange⟩ := poolInv_reached hp
  refine ⟨⟨hkeys, hvals⟩, ?_, ?_, ?_⟩
  · -- (2) released ports are free again and a subsequent Acquire succeeds
    intro port q hok
    unfold Release at hok
    by_cases hl : (lookupPort p.used port).isSome
    · rw [if_pos hl] at hok
      obtain rfl : { p with used := p.used.filter (fun e => e.1 ≠ port) } = q := by
        simpa using hok
      have hfree : lookupPort (p.used.filter (fun e => e.1 ≠ port)) port = none := by
        apply lookupPort_eq_none_iff.mpr
        intro e he
        have := (List.mem_filter.mp he).2
        simpa using this
      refine ⟨hfree, ?_⟩
      intro path
      unfold Acquire
      rcases hfind : findByPath (p.used.filter (fun e => e.1 ≠ port)) path with _ | fp
      · obtain ⟨s, hmem⟩ := lookupPort_isSome_exists hl
        obtain ⟨hplo, hphi⟩ := hrange (port, s) hmem
        simp only [] at hplo hphi
        have hne : firstFreeAux (p.used.filter (fun e => e.1 ≠ port)) p.minPort
            (poolSpan { p with used := p.used.filter (fun e => e.1 ≠ port) }) ≠ none := by
          intro hnone
          have hall := firstFreeAux_none_iff.mp hnone
          have hi : ((port - p.minPort).toNat) <
              poolSpan { p with used := p.used.filter (fun e => e.1 ≠ port) } := by
            unfold poolSpan
            simp only []
            omega
          have := hall ((port - p.minPort).toNat) hi
          have harith : p.minPort + (((port - p.minPort).toNat : Nat) : Int) = port := by
            omega
          rw [harith, hfree] at this
          simp at this
        rcases hfa : firstFreeAux (p.used.filter (fun e => e.1 ≠ port)) p.minPort
            (poolSpan { p with used := p.used.filter (fun e => e.1 ≠ port) }) with _ | fp2
        · exact absurd hfa hne
        · exact ⟨_, rfl⟩
      · exact ⟨_, rfl⟩
    · rw [if_neg hl] at hok; cases hok
  · -- (3) Acquire fails iff the range is fully reserved and the path holds
    -- no reservation
    intro path
    unfold Acquire
    rcases hfind : findByPath p.used path with _ | port0
    · rcases hfa : firstFreeAux p.used p.minPort (poolSpan p) with _ | fp
      · constructor
        · intro _
          refine ⟨by trivial, ?_⟩
          intro port hlo hhi
          have hall := firstFreeAux_none_iff.mp hfa
          have hi : ((port - p.minPort).toNat) < poolSpan p := by
            unfold poolSpan; omega
          have := hall ((port - p.minPort).toNat) hi
          have harith : p.minPort + (((port - p.minPort).toNat : Nat) : Int) = port := by
            omega
          rwa [harith] at this
        · intro _; rfl
      · constructor
        · intro h; cases h
        · rintro ⟨-, hall⟩
          obtain ⟨hnone, hlo, hlt⟩ := firstFreeAux_some hfa
          have hhi : fp ≤ p.maxPort := by unfold poolSpan at hlt; omega
          have := hall fp hlo hhi
          rw [hnone] at this
          cases this
    · constructor
      · intro h; cases h
      · rintro ⟨hnone, -⟩
        cases hnone
  · -- (4) idempotence of Acquire and AcquireAvailable
    intro path port hfind
    constructor
    · unfold Acquire; rw [hfind]
    · intro checker; unfold AcquireAvailable; rw [hfind]

/-- Witness for C3 at a concrete reachable pool: range `[1,2]` with port 1
reserved by "/a" (reached by one `Acquire`).  Conjunct (2) is applied to
`Release` of port 1, conjunct (4) to the existing reservation. -/
theorem C3_port_pool_witness :
    PoolReached (PortPool.mk 1 2 [(1, "/a")]) ∧
    (((PortPool.mk 1 2 [(1, "/a")]).used.map Prod.fst).Nodup ∧
     ((PortPool.mk 1 2 [(1, "/a")]).used.map Prod.snd).Nodup) ∧
    (lookupPort (PortPool.mk 1 2 []).used 1 = none ∧
      ∀ path, ∃ r, Acquire (PortPool.mk 1 2 []) path = Except.ok r) ∧
    (Acquire (PortPool.mk 1 2 [(1, "/a")]) "/a"
        = Except.ok (1, PortPool.mk 1 2 [(1, "/a")]) ∧
      ∀ checker, AcquireAvailable (PortPool.mk 1 2 [(1, "/a")]) "/a" checker
        = Except.ok (1, PortPool.mk 1 2 [(1, "/a")])) := by
  have hre : PoolReached (PortPool.mk 1 2 [(1, "/a")]) :=
    PoolReached.acquire (PoolReached.init 1 2) rfl
  obtain ⟨h1, h2, _, h4⟩ := C3_port_pool (PortPool.mk 1 2 [(1, "/a")]) hre
  exact ⟨hre, h1, h2 1 (PortPool.mk 1 2 []) rfl, h4 "/a" 1 rfl⟩

/-! ## Worker supervisor (`agent/internal/project/manager.go`, `docker.go`)

`Manager.Start` is embedded as a function of the supervisor state
(instance map + port pool), a configuration, and a `DockerEnv` describing
the outcomes of the external Docker/HTTP calls (`IsPortInUse` probes,
`StartContainer`, `WaitForHealth`).  The result records the two Go return
values, the new state, and the trace of container lifecycle commands
issued (`docker run` / `docker stop`+`rm`). -/

inductive PStatus
  | stopped
  | starting
  | running
  | errorSt
  deriving Repr, DecidableEq

structure WInstance where
  path : String
  name : String
  containerName : String
  port : Int
  status : PStatus
  errMsg : String     -- Instance.Error
  startedAt : Int     -- 0 models Go's zero time.Time
  deriving Repr, DecidableEq

structure MgrConfig where
  allowedPaths : List String
  maxInstances : Nat
  deriving Repr, DecidableEq

structure MgrState where
  instances : List (String × WInstance)
  pool : PortPool
  deriving Repr, DecidableEq

structure DockerEnv where
  portInUse : Int → Bool                          -- IsPortInUse health probe
  startErr : String → String → Int → Option String -- StartContainer: some = error
  healthErr : Int → Option String                  -- WaitForHealth: some = error

inductive DockerCall
  | startContainer (name workdir : String) (port : Int)
  | stopContainer (name : String)
  deriving Repr, DecidableEq

structure StartResult where
  inst : Option WInstance     -- the returned *Instance copy (nil when none)
  err : Option String         -- the returned error (none = nil)
  state : MgrState
  calls : List DockerCall
  deriving Repr, DecidableEq

def lookupInst : List (String × WInstance) → String → Option WInstance
  | [], _ => none
  | e :: rest, path => if e.1 = path then some e.2 else lookupInst rest path

/-- In-place mutation of the instance pointer stored in the map. -/
def setInst : List (String × WInstance) → String → WInstance →
    List (String × WInstance)
  | [], _, _ => []
  | e :: rest, path, inst =>
    if e.1 = path then (path, inst) :: rest else e :: setInst rest path inst

def runningCount (l : List (String × WInstance)) : Nat :=
  (l.filter (fun e => e.2.status = PStatus.running)).length

/-- `Manager.validatePath`: exact membership in the allow-list. -/
def validatePath (cfg : MgrConfig) (path : String) : Bool :=
  cfg.allowedPaths.contains path

def maxInstancesMsg (cfg : MgrConfig) : String :=
  "max instances reached (" ++ toString cfg.maxInstances ++
    "), stop another project first"

def poolErrMsg : PoolErr → String
  | .noAvailablePort => "no available port in pool"
  | .portNotInUse => "port not in use"
  | .allPortsInUse => "all ports in range are occupied by other services"

def Start (cfg : MgrConfig) (env : DockerEnv) (st : MgrState) (path : String)
    (now : Int) : StartResult :=
  if !validatePath cfg path then
    ⟨none, some ("path not in whitelist: " ++ path), st, []⟩
  else
    match lookupInst st.instances path with
    | none => ⟨none, some ("project not found: " ++ path), st, []⟩
    | some inst =>
      if inst.status = PStatus.running then ⟨some inst, none, st, []⟩
      else if cfg.maxInstances ≤ runningCount st.instances then
        ⟨none, some (maxInstancesMsg cfg), st, []⟩
      else
        match AcquireAvailable st.pool path env.portInUse with
        | .error e =>
          ⟨none, some ("failed to acquire port: " ++ poolErrMsg e), st, []⟩
        | .ok (port, pool1) =>
          let inst1 := { inst with
            status := PStatus.starting, port := port, errMsg := "" }
          match env.startErr inst.containerName path port with
          | some e =>
            let inst2 := { inst1 with status := PStatus.errorSt, errMsg := e }
            let pool2 := match Release pool1 port with
              | .ok q => q
              | .error _ => pool1
            ⟨some inst2, some e, ⟨setInst st.instances path inst2, pool2⟩,
              [DockerCall.startContainer inst.containerName path port]⟩
          | none =>
            match env.healthErr port with
            | some e =>
              let inst2 := { inst1 with status := PStatus.errorSt, errMsg := e }
              let pool2 := match Release pool1 port with
                | .ok q => q
                | .error _ => pool1
              ⟨some inst2, some e, ⟨setInst st.instances path inst2, pool2⟩,
                [DockerCall.startContainer inst.containerName path port,
                 DockerCall.stopContainer inst.containerName]⟩
            | none =>
              let inst2 := { inst1 with
                status := PStatus.running, startedAt := now }
              ⟨some inst2, none, ⟨setInst st.instances path inst2, pool1⟩,
                [DockerCall.startContainer inst.containerName path port]⟩

theorem lookupPort_filter_ne (used : List (Int × String)) (port : Int) :
    lookupPort (used.filter (fun e => e.1 ≠ port)) port = none := by
  apply lookupPort_eq_none_iff.mpr
  intro e he
  have := (List.mem_filter.mp he).2
  simpa using this

theorem acquireAvailable_lookup_isSome {p q : PortPool} {path : String}
    {port : Int} {checker : Int → Bool}
    (h : AcquireAvailable p path checker = Except.ok (port, q)) :
    (lookupPort q.used port).isSome := by
  unfold AcquireAvailable at h
  rcases hfind : findByPath p.used path with _ | port0
  · rw [hfind] at h
    rcases hfa : firstAvailAux p.used checker p.minPort (poolSpan p) with _ | fp
    · rw [hfa] at h; cases h
    · rw [hfa] at h
      obtain ⟨rfl, rfl⟩ : fp = port ∧ { p with used := (fp, path) :: p.used } = q := by
        simpa using h
      simp [lookupPort]
  · rw [hfind] at h
    obtain ⟨rfl, rfl⟩ : port0 = port ∧ p = q := by simpa using h
    exact lookupPort_isSome_of_mem (findByPath_mem hfind)

theorem setInst_lookup {l : List (String × WInstance)} {path : String}
    {old : WInstance} (h : lookupInst l path = some old) (inst : WInstance) :
    lookupInst (setInst l path inst) path = some inst := by
  induction l with
  | nil => simp [lookupInst] at h
  | cons e rest ih =>
    simp only [lookupInst, setInst] at h ⊢
    by_cases he : e.1 = path
    · rw [if_pos he]
      simp [lookupInst]
    · rw [if_neg he] at h
      rw [if_neg he]
      simp only [lookupInst, if_neg he]
      exact ih h

/-- The port release in the failure branches of `Start` removes the acquired
port from the pool. -/
theorem release_after_acquire {pool1 : PortPool} {port : Int}
    (h : (lookupPort pool1.used port).isSome) :
    lookupPort (match Release pool1 port with
      | Except.ok q => q
      | Except.error _ => pool1).used port = none := by
  unfold Release
  rw [if_pos h]
  exact lookupPort_filter_ne _ _

/-- C4 counterexample: with path "/p" allowed, pool `[4096,4096]`, no
externally-occupied port, and a `docker run` that fails with "boom", `Start`
releases the port, marks the instance `error` and returns the failure — but
issues no stop/teardown command at all, refuting "on any failure after the
port is acquired (launch failure or health-probe failure), Start tears down
the worker". -/
theorem C4_counterexample :
    (Start ⟨["/p"], 5⟩
        ⟨fun _ => false, fun _ _ _ => some "boom", fun _ => none⟩
        ⟨[("/p", ⟨"/p", "p", "openvibe-opencode-p", 0, PStatus.stopped, "", 0⟩)],
         NewPortPool 4096 4096⟩ "/p" 0).err = some "boom" ∧
    (Start ⟨["/p"], 5⟩
        ⟨fun _ => false, fun _ _ _ => some "boom", fun _ => none⟩
        ⟨[("/p", ⟨"/p", "p", "openvibe-opencode-p", 0, PStatus.stopped, "", 0⟩)],
         NewPortPool 4096 4096⟩ "/p" 0).calls
      = [DockerCall.startContainer "openvibe-opencode-p" "/p" 4096] ∧
    ∀ n, DockerCall.stopContainer n ∉
      (Start ⟨["/p"], 5⟩
        ⟨fun _ => false, fun _ _ _ => some "boom", fun _ => none⟩
        ⟨[("/p", ⟨"/p", "p", "openvibe-opencode-p", 0, PStatus.stopped, "", 0⟩)],
         NewPortPool 4096 4096⟩ "/p" 0).calls := by
  refine ⟨rfl, rfl, ?_⟩
  intro n hmem
  have hcalls : (Start ⟨["/p"], 5⟩
        ⟨fun _ => false, fun _ _ _ => some "boom", fun _ => none⟩
        ⟨[("/p", ⟨"/p", "p", "openvibe-opencode-p", 0, PStatus.stopped, "", 0⟩)],
         NewPortPool 4096 4096⟩ "/p" 0).calls
      = [DockerCall.startContainer "openvibe-opencode-p" "/p" 4096] := rfl
  rw [hcalls] at hmem
  simp at hmem

/-- C4 (amended): for a path in the allow-list whose instance exists:
(1) `Start` on an instance that is already `running` returns it unchanged,
without touching state or Docker; (2) when the running count has reached the
configured maximum (and the instance is not running), `Start` fails with the
max-instances error, without acquiring a port, changing any instance, or
touching Docker; (3) on launch failure, `Start` releases the port, marks the
instance `error` with the failure message and returns the failure to the
caller — but does NOT tear the worker down (the only Docker call is the
failed `docker run`); (4) on health-probe failure, `Start` additionally
tears the worker down (a stop command follows the run command), releases
the port, marks the instance `error` with the message, and returns the
failure. -/
theorem C4_start_semantics (cfg : MgrConfig) (env : DockerEnv) (st : MgrState)
    (path : String) (now : Int) (inst : WInstance)
    (hallow : validatePath cfg path = true)
    (hfind : lookupInst st.instances path = some inst) :
    (inst.status = PStatus.running →
        Start cfg env st path now = ⟨some inst, none, st, []⟩) ∧
    (inst.status ≠ PStatus.running →
      cfg.maxInstances ≤ runningCount st.instances →
        Start cfg env st path now = ⟨none, some (maxInstancesMsg cfg), st, []⟩) ∧
    (∀ port pool1 e,
      inst.status ≠ PStatus.running →
      runningCount st.instances < cfg.maxInstances →
      AcquireAvailable st.pool path env.portInUse = Except.ok (port, pool1) →
      env.startErr inst.containerName path port = some e →
        (Start cfg env st path now).err = some e ∧
        lookupInst (Start cfg env st path now).state.instances path
          = some { inst with status := PStatus.errorSt, port := port, errMsg := e } ∧
        lookupPort (Start cfg env st path now).state.pool.used port = none ∧
        (Start cfg env st path now).calls
          = [DockerCall.startContainer inst.containerName path port]) ∧
    (∀ port pool1 e,
      inst.status ≠ PStatus.running →
      runningCount st.instances < cfg.maxInstances →
      AcquireAvailable st.pool path env.portInUse = Except.ok (port, pool1) →
      env.startErr inst.containerName path port = none →
      env.healthErr port = some e →
        (Start cfg env st path now).err = some e ∧
        lookupInst (Start cfg env st path now).state.instances path
          = some { inst with status := PStatus.errorSt, port := port, errMsg := e } ∧
        lookupPort (Start cfg env st path now).state.pool.used port = none ∧
        (Start cfg env st path now).calls
          = [DockerCall.startContainer inst.containerName path port,
             DockerCall.stopContainer inst.containerName]) := by
  refine ⟨?_, ?_, ?_, ?_⟩
  · intro hrun
    simp [Start, hallow, hfind, hrun]
  · intro hrun hmax
    simp [Start, hallow, hfind, hrun, hmax]
  · intro port pool1 e hrun hlt hacq hstart
    have hmax : ¬ cfg.maxInstances ≤ runningCount st.instances := by omega
    have hres : Start cfg env st path now
        = ⟨some { inst with status := PStatus.errorSt, port := port, errMsg := e },
           some e,
           ⟨setInst st.instances path
              { inst with status := PStatus.errorSt, port := port, errMsg := e },
            match Release pool1 port with
            | Except.ok q => q
            | Except.error _ => pool1⟩,
           [DockerCall.startContainer inst.containerName path port]⟩ := by
      simp [Start, hallow, hfind, hrun, hmax, hacq, hstart]
    rw [hres]
    refine ⟨rfl, ?_, ?_, rfl⟩
    · exact setInst_lookup hfind _
    · exact release_after_acquire (acquireAvailable_lookup_isSome hacq)
  · intro port pool1 e hrun hlt hacq hstart hhealth
    have hmax : ¬ cfg.maxInstances ≤ runningCount st.instances := by omega
    have hres : Start cfg env st path now
        = ⟨some { inst with status := PStatus.errorSt, port := port, errMsg := e },
           some e,
           ⟨setInst st.instances path
              { inst with status := PStatus.errorSt, port := port, errMsg := e },
            match Release pool1 port with
            | Except.ok q => q
            | Except.error _ => pool1⟩,
           [DockerCall.startContainer inst.containerName path port,
            DockerCall.stopContainer inst.containerName]⟩ := by
      simp [Start, hallow, hfind, hrun, hmax, hacq, hstart, hhealth]
    rw [hres]
    refine ⟨rfl, ?_, ?_, rfl⟩
    · exact setInst_lookup hfind _
    · exact release_after_acquire (acquireAvailable_lookup_isSome hacq)

/-- Witness for C4 at a concrete input: allow-list `["/p"]`, pool
`[4096,4096]`, a launch that succeeds and a health probe that times out;
conjunct (4) applies, yielding the error result, the `error`-marked
instance, the released port, and the run-then-stop call trace. -/
theorem C4_start_semantics_witness :
    validatePath ⟨["/p"], 5⟩ "/p" = true ∧
    lookupInst [("/p", ⟨"/p", "p", "openvibe-opencode-p", 0, PStatus.stopped, "", 0⟩)]
        "/p" = some ⟨"/p", "p", "openvibe-opencode-p", 0, PStatus.stopped, "", 0⟩ ∧
    ((Start ⟨["/p"], 5⟩
        ⟨fun _ => false, fun _ _ _ => none, fun _ => some "opencode health check timeout"⟩
        ⟨[("/p", ⟨"/p", "p", "openvibe-opencode-p", 0, PStatus.stopped, "", 0⟩)],
         NewPortPool 4096 4096⟩ "/p" 9).err = some "opencode health check timeout" ∧
     lookupInst (Start ⟨["/p"], 5⟩
        ⟨fun _ => false, fun _ _ _ => none, fun _ => some "opencode health check timeout"⟩
        ⟨[("/p", ⟨"/p", "p", "openvibe-opencode-p", 0, PStatus.stopped, "", 0⟩)],
         NewPortPool 4096 4096⟩ "/p" 9).state.instances "/p"
       = some ⟨"/p", "p", "openvibe-opencode-p", 4096, PStatus.errorSt,
           "opencode health check timeout", 0⟩ ∧
     lookupPort (Start ⟨["/p"], 5⟩
        ⟨fun _ => false, fun _ _ _ => none, fun _ => some "opencode health check timeout"⟩
        ⟨[("/p", ⟨"/p", "p", "openvibe-opencode-p", 0, PStatus.stopped, "", 0⟩)],
         NewPortPool 4096 4096⟩ "/p" 9).state.pool.used 4096 = none ∧
     (Start ⟨["/p"], 5⟩
        ⟨fun _ => false, fun _ _ _ => none, fun _ => some "opencode health check timeout"⟩
        ⟨[("/p", ⟨"/p", "p", "openvibe-opencode-p", 0, PStatus.stopped, "", 0⟩)],
         NewPortPool 4096 4096⟩ "/p" 9).calls
       = [DockerCall.startContainer "openvibe-opencode-p" "/p" 4096,
          DockerCall.stopContainer "openvibe-opencode-p"]) := by
  refine ⟨rfl, rfl, ?_⟩
  exact (C4_start_semantics ⟨["/p"], 5⟩
      ⟨fun _ => false, fun _ _ _ => none, fun _ => some "opencode health check timeout"⟩
      ⟨[("/p", ⟨"/p", "p", "openvibe-opencode-p", 0, PStatus.stopped, "", 0⟩)],
       NewPortPool 4096 4096⟩ "/p" 9
      ⟨"/p", "p", "openvibe-opencode-p", 0, PStatus.stopped, "", 0⟩
      rfl rfl).2.2.2 4096 (PortPool.mk 4096 4096 [(4096, "/p")])
      "opencode health check timeout" (by decide) (by decide) rfl rfl rfl

/-! ## Hub client server (`hub/internal/server/server.go`)

Frames are parsed JSON values; `Json` models the decoded document and the
`unmarshal*` functions model `encoding/json.Unmarshal` into the payload
structs (`null` succeeds leaving zero values, a missing field keeps its zero
value, a type-mismatched or non-object document is an error, a `nil`
RawMessage — absent payload — is an "unexpected end of JSON input" error).

Agent replies routed to a pending-request channel can only carry the four
types of `handleAgentMessage` (`manager.go:237`), embedded as `AMsgType`.
External collaborators (the tunnel manager's agent lookup, `Forward`'s
enqueue, the direct OpenCode proxy) are parameterised by `ServerEnv`. -/

inductive Json
  | null
  | jbool (b : Bool)
  | jnum (n : Int)
  | jstr (s : String)
  | jarr (elems : List Json)
  | jobj (fields : List (String × Json))

/-- Object field access with Go duplicate-key semantics (the last value for a
repeated key wins). -/
def getField : List (String × Json) → String → Option Json
  | [], _ => none
  | f :: rest, k =>
    match getField rest k with
    | some v => some v
    | none => if f.1 = k then some f.2 else none

/-- Decode a `string` struct field from a JSON object. -/
def decStringField (fields : List (String × Json)) (k : String) : Option String :=
  match getField fields k with
  | none => some ""
  | some Json.null => some ""
  | some (Json.jstr s) => some s
  | some _ => none

/-- Decode an `int64` struct field from a JSON object. -/
def decIntField (fields : List (String × Json)) (k : String) : Option Int :=
  match getField fields k with
  | none => some 0
  | some Json.null => some 0
  | some (Json.jnum n) => some n
  | some _ => none

/-- `json.Unmarshal` of an `ack` payload into `struct having MsgID int64`. -/
def unmarshalAck : Option Json → Option Int
  | none => none
  | some Json.null => some 0
  | some (Json.jobj fields) => decIntField fields "msgId"
  | some _ => none

structure PromptPayload where
  sessionID : String
  content : String
  deriving Repr, DecidableEq

def unmarshalPrompt : Option Json → Option PromptPayload
  | none => none
  | some Json.null => some ⟨"", ""⟩
  | some (Json.jobj fields) => do
    let sid ← decStringField fields "sessionId"
    let content ← decStringField fields "content"
    pure ⟨sid, content⟩
  | some _ => none

structure SessionPayload where
  sessionID : String
  title : String
  directory : String
  deriving Repr, DecidableEq

def unmarshalSession : Option Json → Option SessionPayload
  | none => none
  | some Json.null => some ⟨"", "", ""⟩
  | some (Json.jobj fields) => do
    let sid ← decStringField fields "sessionId"
    let title ← decStringField fields "title"
    let dir ← decStringField fields "directory"
    pure ⟨sid, title, dir⟩
  | some _ => none

structure SyncPayload where
  sessionID : String
  lastAckID : Int
  deriving Repr, DecidableEq

def unmarshalSync : Option Json → Option SyncPayload
  | none => none
  | some Json.null => some ⟨"", 0⟩
  | some (Json.jobj fields) => do
    let sid ← decStringField fields "sessionId"
    let ack ← decIntField fields "lastAckId"
    pure ⟨sid, ack⟩
  | some _ => none

/-- `^ses_[a-zA-Z0-9]+$` (the compiled `sessionIDPattern`). -/
def isSessionChar (c : Char) : Bool :=
  (('a' ≤ c) && (c ≤ 'z')) || (('A' ≤ c) && (c ≤ 'Z')) || (('0' ≤ c) && (c ≤ '9'))

def sessionIDMatch (s : String) : Bool :=
  match s.toList with
  | 's' :: 'e' :: 's' :: '_' :: rest => !rest.isEmpty && rest.all isSessionChar
  | _ => false

/-- The four agent frame types that `handleAgentMessage` routes to a pending
request's response channel. -/
inductive AMsgType
  | response   -- MsgTypeResponse
  | stream     -- MsgTypeStream
  | streamEnd  -- MsgTypeStreamEnd
  | amError    -- MsgTypeError
  deriving Repr, DecidableEq

structure AMsg where
  mtype : AMsgType
  payload : String
  deriving Repr, DecidableEq

/-- Payload of an outbound `ServerMessage` (the Go `interface value`). -/
inductive SPayload
  | nullP                 -- Payload: nil
  | raw (s : String)      -- json.RawMessage passthrough
  | errObj (e : String)   -- the map built by sendError
  | sessionObj (id : String)  -- session object returned by the proxy
  deriving Repr, DecidableEq

structure ServerMsg where
  mtype : String
  id : String
  msgId : Int     -- 0 models the omitted MsgID
  payload : SPayload
  deriving Repr, DecidableEq

def errFrame (requestID errMsg : String) : ServerMsg :=
  ⟨"error", requestID, 0, SPayload.errObj errMsg⟩

structure ClientConn where
  sessionID : String   -- the "current session" hint
  lastAckID : Int
  deriving Repr, DecidableEq

/-- Outcomes of the external collaborators during one handler run. -/
structure ServerEnv where
  agentAvailable : Option String    -- GetAnyAgent: some agentID
  forwardOk : Bool                  -- Forward's enqueue on agent.send succeeded
  forwardErrText : String           -- err.Error() when Forward fails
  ctxTimedOut : Bool                -- the request context fired before a reply
  respStream : List AMsg            -- replies delivered on the response channel
  proxyHealthy : Bool               -- proxy.Health for direct mode
  proxyCreate : Option String       -- direct CreateSession: some session id
  proxyErrText : String             -- error text of a failed proxy call
  proxyChunks : List String         -- direct SendMessage streamed chunks
  proxySendErr : Option String      -- direct SendMessage final error

/-- `Client.handleViaAgent` after a successful `Forward`: a single `select`
on the response channel versus the context.  Receiving `nil` (closed
channel) sends nothing; the first message is relayed with `stream`
relabelled as `response` and `error` kept as `error` (any other type also
becomes `response`); the function then returns, so later channel contents
are never read. -/
def handleViaAgent (requestID : String) (timedOut : Bool) (chan : List AMsg) :
    List ServerMsg :=
  if timedOut then [errFrame requestID "Request timeout"]
  else
    match chan with
    | [] => []
    | m :: _ =>
      match m.mtype with
      | AMsgType.amError => [⟨"error", requestID, 0, SPayload.raw m.payload⟩]
      | _ => [⟨"response", requestID, 0, SPayload.raw m.payload⟩]

/-- `Client.handleViaAgentStream`'s response loop: for each received frame,
`stream` and `stream.end` are first `Push`ed to the replay buffer under
`sessionID` and then emitted to the client carrying the assigned id in
`MsgID`; `error` frames are emitted without buffering; `response` frames
are ignored by the switch. -/
def handleViaAgentStream (buf : RedisState) (sessionID requestID : String)
    (chan : List AMsg) (now : Int) : List ServerMsg × RedisState :=
  match chan with
  | [] => ([], buf)
  | m :: rest =>
    match m.mtype with
    | AMsgType.stream =>
      let r := Push buf sessionID ⟨0, "stream", requestID, m.payload, 0⟩ now
      let tail := handleViaAgentStream r.2 sessionID requestID rest now
      (⟨"stream", requestID, r.1, SPayload.raw m.payload⟩ :: tail.1, tail.2)
    | AMsgType.streamEnd =>
      let r := Push buf sessionID ⟨0, "stream.end", requestID, "", 0⟩ now
      let tail := handleViaAgentStream r.2 sessionID requestID rest now
      (⟨"stream.end", requestID, r.1, SPayload.nullP⟩ :: tail.1, tail.2)
    | AMsgType.amError =>
      let tail := handleViaAgentStream buf sessionID requestID rest now
      (⟨"error", requestID, 0, SPayload.raw m.payload⟩ :: tail.1, tail.2)
    | AMsgType.response =>
      handleViaAgentStream buf sessionID requestID rest now

/-- Direct-mode streaming of `handlePrompt` (no agent): each SSE chunk is
buffered and emitted like the via-agent stream path. -/
def directStream (buf : RedisState) (sessionID requestID : String)
    (chunks : List String) (now : Int) : List ServerMsg × RedisState :=
  match chunks with
  | [] => ([], buf)
  | d :: rest =>
    let r := Push buf sessionID ⟨0, "stream", requestID, d, 0⟩ now
    let tail := directStream r.2 sessionID requestID rest now
    (⟨"stream", requestID, r.1, SPayload.raw d⟩ :: tail.1, tail.2)

structure PromptResult where
  frames : List ServerMsg
  buf : RedisState
  forwarded : Option (String × String)   -- (sessionID, action) sent to an agent

/-- `Client.handlePrompt`: substitute the connection hint for an empty
payload `sessionId`; reject when still empty, then validate against the
session-id pattern; with an agent available forward as a streaming request,
otherwise fall back to the direct proxy. -/
def handlePrompt (env : ServerEnv) (c : ClientConn) (buf : RedisState)
    (requestID : String) (payload : PromptPayload) (now : Int) : PromptResult :=
  let sessionID := if payload.sessionID = "" then c.sessionID else payload.sessionID
  if sessionID = "" then
    ⟨[errFrame requestID "No session ID provided"], buf, none⟩
  else if !sessionIDMatch sessionID then
    ⟨[errFrame requestID "Invalid session ID format"], buf, none⟩
  else
    match env.agentAvailable with
    | some _ =>
      if env.forwardOk then
        let r := handleViaAgentStream buf sessionID requestID env.respStream now
        ⟨r.1, r.2, some (sessionID, "prompt")⟩
      else
        ⟨[errFrame requestID ("Agent forward failed: " ++ env.forwardErrText)],
          buf, none⟩
    | none =>
      let streamed := directStream buf sessionID requestID env.proxyChunks now
      match env.proxySendErr with
      | some e =>
        ⟨streamed.1 ++ [errFrame requestID ("Failed to send message: " ++ e)],
          streamed.2, none⟩
      | none =>
        let r := Push streamed.2 sessionID ⟨0, "stream.end", requestID, "", 0⟩ now
        ⟨streamed.1 ++ [⟨"stream.end", requestID, r.1, SPayload.nullP⟩],
          r.2, none⟩

structure SessionCreateResult where
  conn : ClientConn
  frames : List ServerMsg
  forwarded : Option (String × String)  -- (title, directory); directory is also the projectPath

/-- `Client.handleSessionCreate`: with an agent available, forward via
`handleViaAgent` (the hint is NOT updated on this path); in direct mode, a
successful `proxy.CreateSession` stores the new session id in the
connection's `sessionID` hint. -/
def handleSessionCreate (env : ServerEnv) (c : ClientConn)
    (requestID title directory : String) : SessionCreateResult :=
  match env.agentAvailable with
  | some _ =>
    if env.forwardOk then
      ⟨c, handleViaAgent requestID env.ctxTimedOut env.respStream,
        some (title, directory)⟩
    else
      ⟨c, [errFrame requestID ("Agent forward failed: " ++ env.forwardErrText)],
        none⟩
  | none =>
    if !env.proxyHealthy then
      ⟨c, [errFrame requestID
        "No agent connected. Please start the OpenVibe agent on your development server."],
        none⟩
    else
      match env.proxyCreate with
      | none =>
        ⟨c, [errFrame requestID ("Failed to create session: " ++ env.proxyErrText)],
          none⟩
      | some sid =>
        ⟨{ c with sessionID := sid },
          [⟨"response", requestID, 0, SPayload.sessionObj sid⟩], none⟩

/-- The handler invocation `handleMessage` dispatches to after decoding. -/
inductive HandlerCall
  | sessionList (id : String)
  | sessionCreate (id title directory : String)
  | prompt (id : String) (p : PromptPayload)
  | sync (id : String) (p : SyncPayload)
  | sessionMessages (id sid : String)
  | sessionDelete (id sid : String)
  | projectList (id : String)
  | projectAction (id mtype : String)

structure DispatchResult where
  conn : ClientConn
  frames : List ServerMsg
  call : Option HandlerCall

/-- `Client.handleMessage` on a frame that parsed as a `ClientMessage`:
local replies (`ping`, unknown types, payload-decode failures) are returned
as frames; decoded handler invocations are returned as `call`; only the
`ack` case touches connection state, and its decode failure is silent. -/
def handleMessage (c : ClientConn) (mtype mid : String) (payload : Option Json) :
    DispatchResult :=
  match mtype with
  | "ping" => ⟨c, [⟨"pong", mid, 0, SPayload.nullP⟩], none⟩
  | "session.list" => ⟨c, [], some (HandlerCall.sessionList mid)⟩
  | "session.create" =>
    match unmarshalSession payload with
    | none => ⟨c, [errFrame mid "Invalid payload format"], none⟩
    | some p => ⟨c, [], some (HandlerCall.sessionCreate mid p.title p.directory)⟩
  | "prompt" =>
    match unmarshalPrompt payload with
    | none => ⟨c, [errFrame mid "Invalid payload format"], none⟩
    | some p => ⟨c, [], some (HandlerCall.prompt mid p)⟩
  | "sync" =>
    match unmarshalSync payload with
    | none => ⟨c, [errFrame mid "Invalid payload format"], none⟩
    | some p => ⟨c, [], some (HandlerCall.sync mid p)⟩
  | "ack" =>
    match unmarshalAck payload with
    | none => ⟨c, [], none⟩
    | some v => ⟨{ c with lastAckID := v }, [], none⟩
  | "session.messages" =>
    match unmarshalSession payload with
    | none => ⟨c, [errFrame mid "Invalid payload format"], none⟩
    | some p => ⟨c, [], some (HandlerCall.sessionMessages mid p.sessionID)⟩
  | "session.delete" =>
    match unmarshalSession payload with
    | none => ⟨c, [errFrame mid "Invalid payload format"], none⟩
    | some p => ⟨c, [], some (HandlerCall.sessionDelete mid p.sessionID)⟩
  | "project.list" => ⟨c, [], some (HandlerCall.projectList mid)⟩
  | "project.start" => ⟨c, [], some (HandlerCall.projectAction mid "project.start")⟩
  | "project.stop" => ⟨c, [], some (HandlerCall.projectAction mid "project.stop")⟩
  | other => ⟨c, [errFrame mid ("Unknown message type: " ++ other)], none⟩

/-- C8: a non-streaming forward through `handleViaAgent` relays exactly the
first frame from the agent's response channel — `stream` (and any
non-error type) relabelled as `response`, `error` kept as `error` — and
returns; the remaining channel contents (`rest`) do not influence the
output and are never delivered to the client. -/
theorem C8_forward_first_reply_only (requestID : String) (m : AMsg)
    (rest : List AMsg) :
    handleViaAgent requestID false (m :: rest)
      = [⟨match m.mtype with
          | AMsgType.amError => "error"
          | _ => "response", requestID, 0, SPayload.raw m.payload⟩] ∧
    handleViaAgent requestID false (m :: rest)
      = handleViaAgent requestID false [m] := by
  cases m with
  | mk t p => cases t <;> exact ⟨rfl, rfl⟩

/-- Line 379-382 of `handlePrompt`: the session id actually used — the
payload's `sessionId`, or the connection's current-session hint when the
payload's is empty. -/
def effectiveSession (c : ClientConn) (payload : PromptPayload) : String :=
  if payload.sessionID = "" then c.sessionID else payload.sessionID

/-- The buffer messages that the via-agent stream loop pushes, in order. -/
def toBufList (requestID : String) : List AMsg → List BufMessage
  | [] => []
  | m :: rest =>
    match m.mtype with
    | AMsgType.stream => ⟨0, "stream", requestID, m.payload, 0⟩ :: toBufList requestID rest
    | AMsgType.streamEnd => ⟨0, "stream.end", requestID, "", 0⟩ :: toBufList requestID rest
    | _ => toBufList requestID rest

/-- The client frames the via-agent stream loop emits when the session
counter starts at `cnt`: each buffered frame carries the id its `Push`
returned (`cnt+1`, `cnt+2`, ...); error frames carry no id. -/
def emitExpected (requestID : String) (cnt : Int) : List AMsg → List ServerMsg
  | [] => []
  | m :: rest =>
    match m.mtype with
    | AMsgType.stream =>
      ⟨"stream", requestID, cnt + 1, SPayload.raw m.payload⟩
        :: emitExpected requestID (cnt + 1) rest
    | AMsgType.streamEnd =>
      ⟨"stream.end", requestID, cnt + 1, SPayload.nullP⟩
        :: emitExpected requestID (cnt + 1) rest
    | AMsgType.amError =>
      ⟨"error", requestID, 0, SPayload.raw m.payload⟩
        :: emitExpected requestID cnt rest
    | AMsgType.response => emitExpected requestID cnt rest

theorem Push_counter (s : RedisState) (sessionID : String) (msg : BufMessage)
    (now : Int) : (Push s sessionID msg now).2.counter sessionID
      = s.counter sessionID + 1 := by
  simp [Push]

theorem Push_id (s : RedisState) (sessionID : String) (msg : BufMessage)
    (now : Int) : (Push s sessionID msg now).1 = s.counter sessionID + 1 := rfl

/-- The via-agent stream loop buffers exactly `toBufList` (in order, via
successive pushes) and emits exactly `emitExpected` — every emitted
`stream`/`stream.end` frame carries the id assigned by its preceding
`Push`. -/
theorem viaAgentStream_spec (sessionID requestID : String) (now : Int)
    (chan : List AMsg) (buf : RedisState) :
    handleViaAgentStream buf sessionID requestID chan now
      = (emitExpected requestID (buf.counter sessionID) chan,
         (pushAll buf sessionID now (toBufList requestID chan)).2) := by
  induction chan generalizing buf with
  | nil => rfl
  | cons m rest ih =>
    cases hm : m.mtype with
    | stream =>
      simp only [handleViaAgentStream, emitExpected, toBufList, hm, ih, pushAll,
        Push_counter, Push_id]
    | streamEnd =>
      simp only [handleViaAgentStream, emitExpected, toBufList, hm, ih, pushAll,
        Push_counter, Push_id]
    | amError =>
      simp only [handleViaAgentStream, emitExpected, toBufList, hm, ih]
    | response =>
      simp only [handleViaAgentStream, emitExpected, toBufList, hm, ih]

/-- C5 counterexample: a prompt frame whose payload `sessionId` is the empty
string — which does not match `^ses_[a-zA-Z0-9]+$` — is nonetheless
forwarded (no error frame is sent) when the connection's current-session
hint is a valid session id: the code substitutes the hint before
validating. -/
theorem C5_counterexample :
    sessionIDMatch "" = false ∧
    (handlePrompt ⟨some "dev1", true, "", false, [], true, none, "", [], none⟩
        ⟨"ses_a", 0⟩ RedisState.empty "r1" ⟨"", "hi"⟩ 0).forwarded
      = some ("ses_a", "prompt") ∧
    (handlePrompt ⟨some "dev1", true, "", false, [], true, none, "", [], none⟩
        ⟨"ses_a", 0⟩ RedisState.empty "r1" ⟨"", "hi"⟩ 0).frames = [] := by
  exact ⟨rfl, rfl, rfl⟩

/-- C5 (amended): with an agent available and the forward enqueue accepted,
a prompt frame whose effective sessionId (the payload's `sessionId`, or the
connection's current-session hint when the payload's is empty) does not
match `^ses_[a-zA-Z0-9]+$` is answered with an error frame and is not
forwarded to any agent; a prompt whose effective sessionId is valid is
forwarded as a streaming request, and each streamed chunk and the
terminating `stream.end` is first appended to the replay buffer under that
sessionId and then emitted to the client carrying the buffer id assigned by
`Push` (successive counter values). -/
theorem C5_prompt_streaming (env : ServerEnv) (c : ClientConn)
    (buf : RedisState) (requestID : String) (payload : PromptPayload)
    (now : Int) (aid : String) (hAgent : env.agentAvailable = some aid)
    (hFwd : env.forwardOk = true) :
    (sessionIDMatch (effectiveSession c payload) = false →
      handlePrompt env c buf requestID payload now
        = ⟨[errFrame requestID
            (if effectiveSession c payload = "" then "No session ID provided"
             else "Invalid session ID format")], buf, none⟩) ∧
    (sessionIDMatch (effectiveSession c payload) = true →
      handlePrompt env c buf requestID payload now
        = ⟨emitExpected requestID (buf.counter (effectiveSession c payload))
              env.respStream,
           (pushAll buf (effectiveSession c payload) now
              (toBufList requestID env.respStream)).2,
           some (effectiveSession c payload, "prompt")⟩) := by
  constructor
  · intro hno
    by_cases hemp : effectiveSession c payload = ""
    · rw [if_pos hemp]
      unfold handlePrompt
      rw [show (if payload.sessionID = "" then c.sessionID else payload.sessionID)
            = effectiveSession c payload from rfl]
      rw [if_pos hemp]
    · rw [if_neg hemp]
      unfold handlePrompt
      rw [show (if payload.sessionID = "" then c.sessionID else payload.sessionID)
            = effectiveSession c payload from rfl]
      rw [if_neg hemp, hno]
      rfl
  · intro hyes
    have hemp : effectiveSession c payload ≠ "" := by
      intro h
      rw [h] at hyes
      cases hyes
    unfold handlePrompt
    rw [show (if payload.sessionID = "" then c.sessionID else payload.sessionID)
          = effectiveSession c payload from rfl]
    rw [if_neg hemp, hyes]
    simp only [Bool.not_true, Bool.false_eq_true, if_false, hAgent, hFwd, if_true]
    rw [viaAgentStream_spec]

/-- Witness for C5 at a concrete input: hint empty, payload sessionId
"ses_x" (valid), agent present, channel delivering one chunk then the
stream end; the frames carry ids 1 and 2 straight from the pushes. -/
theorem C5_prompt_streaming_witness :
    (⟨some "dev1", true, "", false,
        [⟨AMsgType.stream, "hello"⟩, ⟨AMsgType.streamEnd, ""⟩], true, none, "",
        [], none⟩ : ServerEnv).agentAvailable = some "dev1" ∧
    sessionIDMatch (effectiveSession ⟨"", 0⟩ ⟨"ses_x", "hi"⟩) = true ∧
    handlePrompt ⟨some "dev1", true, "", false,
        [⟨AMsgType.stream, "hello"⟩, ⟨AMsgType.streamEnd, ""⟩], true, none, "",
        [], none⟩ ⟨"", 0⟩ RedisState.empty "r1" ⟨"ses_x", "hi"⟩ 4
      = ⟨emitExpected "r1" (RedisState.empty.counter (effectiveSession ⟨"", 0⟩ ⟨"ses_x", "hi"⟩))
            [⟨AMsgType.stream, "hello"⟩, ⟨AMsgType.streamEnd, ""⟩],
         (pushAll RedisState.empty (effectiveSession ⟨"", 0⟩ ⟨"ses_x", "hi"⟩) 4
            (toBufList "r1" [⟨AMsgType.stream, "hello"⟩, ⟨AMsgType.streamEnd, ""⟩])).2,
         some (effectiveSession ⟨"", 0⟩ ⟨"ses_x", "hi"⟩, "prompt")⟩ := by
  refine ⟨rfl, rfl, ?_⟩
  exact (C5_prompt_streaming ⟨some "dev1", true, "", false,
      [⟨AMsgType.stream, "hello"⟩, ⟨AMsgType.streamEnd, ""⟩], true, none, "",
      [], none⟩ ⟨"", 0⟩ RedisState.empty "r1" ⟨"ses_x", "hi"⟩ 4 "dev1"
      rfl rfl).2 rfl

/-- C6 counterexample: processing ack 5 then ack 3 leaves `lastAckID = 3`,
strictly below the 5 it held before — the update is a plain assignment, not
a non-decreasing one. -/
theorem C6_counterexample :
    (handleMessage
        (handleMessage ⟨"", 0⟩ "ack" ""
          (some (Json.jobj [("msgId", Json.jnum 5)]))).conn
        "ack" "" (some (Json.jobj [("msgId", Json.jnum 3)]))).conn.lastAckID
      < (handleMessage ⟨"", 0⟩ "ack" ""
          (some (Json.jobj [("msgId", Json.jnum 5)]))).conn.lastAckID := by
  show (3 : Int) < 5
  decide

/-- C6 (amended): processing an ack frame whose payload decodes sets the
connection's `lastAckId` to the supplied `msgId` unconditionally (no
clamping — the value decreases when a client acks a smaller id), sending no
frames. -/
theorem C6_ack_assignment (c : ClientConn) (mid : String)
    (payload : Option Json) (v : Int) (h : unmarshalAck payload = some v) :
    (handleMessage c "ack" mid payload).conn.lastAckID = v ∧
    (handleMessage c "ack" mid payload).frames = [] ∧
    (handleMessage c "ack" mid payload).conn.sessionID = c.sessionID := by
  simp [handleMessage, h]

/-- Witness for C6: an ack with `msgId = 3` against a connection whose
`lastAckID` is 7 sets it to 3. -/
theorem C6_ack_assignment_witness :
    unmarshalAck (some (Json.jobj [("msgId", Json.jnum 3)])) = some 3 ∧
    ((handleMessage ⟨"ses_a", 7⟩ "ack" "m9"
        (some (Json.jobj [("msgId", Json.jnum 3)]))).conn.lastAckID = 3 ∧
      (handleMessage ⟨"ses_a", 7⟩ "ack" "m9"
        (some (Json.jobj [("msgId", Json.jnum 3)]))).frames = [] ∧
      (handleMessage ⟨"ses_a", 7⟩ "ack" "m9"
        (some (Json.jobj [("msgId", Json.jnum 3)]))).conn.sessionID = "ses_a") :=
  ⟨rfl, C6_ack_assignment ⟨"ses_a", 7⟩ "m9"
    (some (Json.jobj [("msgId", Json.jnum 3)])) 3 rfl⟩

/-- C10: an ack frame whose payload fails to decode is silently ignored —
no frames are sent (in particular no error frame), the connection state
(including `lastAckID`) is untouched, and no handler is invoked — whereas
`session.create`, `prompt`, `sync`, `session.messages` and `session.delete`
answer a failing payload decode with an "Invalid payload format" error frame
(and invoke nothing). -/
theorem C10_malformed_payloads (c : ClientConn) (mid : String) :
    (∀ payload, unmarshalAck payload = none →
      handleMessage c "ack" mid payload = ⟨c, [], none⟩) ∧
    (∀ payload, unmarshalSession payload = none →
      handleMessage c "session.create" mid payload
          = ⟨c, [errFrame mid "Invalid payload format"], none⟩ ∧
      handleMessage c "session.messages" mid payload
          = ⟨c, [errFrame mid "Invalid payload format"], none⟩ ∧
      handleMessage c "session.delete" mid payload
          = ⟨c, [errFrame mid "Invalid payload format"], none⟩) ∧
    (∀ payload, unmarshalPrompt payload = none →
      handleMessage c "prompt" mid payload
          = ⟨c, [errFrame mid "Invalid payload format"], none⟩) ∧
    (∀ payload, unmarshalSync payload = none →
      handleMessage c "sync" mid payload
          = ⟨c, [errFrame mid "Invalid payload format"], none⟩) := by
  refine ⟨?_, ?_, ?_, ?_⟩
  · intro payload h
    simp [handleMessage, h]
  · intro payload h
    refine ⟨?_, ?_, ?_⟩ <;> simp [handleMessage, h]
  · intro payload h
    simp [handleMessage, h]
  · intro payload h
    simp [handleMessage, h]

/-- Witness for C10: a JSON string payload (for example `"x"`) fails every
struct decode; the ack is silently dropped while the five other types
answer with the "Invalid payload format" error frame. -/
theorem C10_malformed_payloads_witness :
    unmarshalAck (some (Json.jstr "x")) = none ∧
    unmarshalSession (some (Json.jstr "x")) = none ∧
    unmarshalPrompt (some (Json.jstr "x")) = none ∧
    unmarshalSync (some (Json.jstr "x")) = none ∧
    handleMessage ⟨"ses_a", 7⟩ "ack" "m1" (some (Json.jstr "x"))
      = ⟨⟨"ses_a", 7⟩, [], none⟩ ∧
    handleMessage ⟨"ses_a", 7⟩ "prompt" "m1" (some (Json.jstr "x"))
      = ⟨⟨"ses_a", 7⟩, [errFrame "m1" "Invalid payload format"], none⟩ := by
  obtain ⟨h1, h2, h3, h4⟩ := C10_malformed_payloads ⟨"ses_a", 7⟩ "m1"
  exact ⟨rfl, rfl, rfl, rfl, h1 (some (Json.jstr "x")) rfl,
    h3 (some (Json.jstr "x")) rfl⟩

theorem agentForwardMsg_ne (t : String) :
    "Agent forward failed: " ++ t ≠ "No session ID provided" := by
  intro h
  have hl := congrArg String.length h
  rw [String.length_append] at hl
  have ht : t.length = 0 := by
    have h1 : ("Agent forward failed: " : String).length = 22 := rfl
    have h2 : ("No session ID provided" : String).length = 22 := rfl
    omega
  have hemp : t = "" := by
    cases t with
    | mk data =>
      have hd : data = [] := List.length_eq_zero.mp ht
      rw [hd]
  subst hemp
  exact absurd h (by decide)

theorem proxySendMsg_ne (t : String) :
    "Failed to send message: " ++ t ≠ "No session ID provided" := by
  intro h
  have hl := congrArg String.length h
  rw [String.length_append] at hl
  have h1 : ("Failed to send message: " : String).length = 24 := rfl
  have h2 : ("No session ID provided" : String).length = 22 := rfl
  omega

theorem errFrame_msg_eq {requestID a b : String}
    (h : errFrame requestID a = errFrame requestID b) : a = b := by
  have hp := congrArg ServerMsg.payload h
  simpa [errFrame] using hp

/-- When the effective sessionId is nonempty, `handlePrompt` never produces
the "No session ID provided" rejection (every other branch either forwards,
or answers with a distinguishable frame). -/
theorem handlePrompt_reject_aux (env : ServerEnv) (c : ClientConn)
    (buf : RedisState) (requestID : String) (payload : PromptPayload) (now : Int)
    (hemp : ¬ (if payload.sessionID = "" then c.sessionID else payload.sessionID) = "") :
    ¬ ((handlePrompt env c buf requestID payload now).frames
          = [errFrame requestID "No session ID provided"] ∧
       (handlePrompt env c buf requestID payload now).forwarded = none) := by
  by_cases hm : sessionIDMatch
      (if payload.sessionID = "" then c.sessionID else payload.sessionID) = true
  · cases hA : env.agentAvailable with
    | some a =>
      by_cases hF : env.forwardOk = true
      · have hres : (handlePrompt env c buf requestID payload now).forwarded
            = some ((if payload.sessionID = "" then c.sessionID
                     else payload.sessionID), "prompt") := by
          simp [handlePrompt, hemp, hm, hA, hF]
        rintro ⟨-, hfwd⟩
        rw [hres] at hfwd
        cases hfwd
      · have hres : (handlePrompt env c buf requestID payload now).frames
            = [errFrame requestID ("Agent forward failed: " ++ env.forwardErrText)] := by
          simp [handlePrompt, hemp, hm, hA, hF]
        rintro ⟨hf, -⟩
        rw [hres] at hf
        have hx := (List.cons_eq_cons.mp hf).1
        exact agentForwardMsg_ne env.forwardErrText (errFrame_msg_eq hx)
    | none =>
      cases hS : env.proxySendErr with
      | some e =>
        have hres : (handlePrompt env c buf requestID payload now).frames
            = (directStream buf
                (if payload.sessionID = "" then c.sessionID else payload.sessionID)
                requestID env.proxyChunks now).1
              ++ [errFrame requestID ("Failed to send message: " ++ e)] := by
          simp [handlePrompt, hemp, hm, hA, hS]
        rintro ⟨hf, -⟩
        rw [hres] at hf
        have hlen := congrArg List.length hf
        simp only [List.length_append, List.length_cons, List.length_nil] at hlen
        have hnil : (directStream buf
            (if payload.sessionID = "" then c.sessionID else payload.sessionID)
            requestID env.proxyChunks now).1 = [] := by
          apply List.length_eq_zero.mp
          omega
        rw [hnil, List.nil_append] at hf
        have hx := (List.cons_eq_cons.mp hf).1
        exact proxySendMsg_ne e (errFrame_msg_eq hx)
      | none =>
        have hres : (handlePrompt env c buf requestID payload now).frames
            = (directStream buf
                (if payload.sessionID = "" then c.sessionID else payload.sessionID)
                requestID env.proxyChunks now).1
              ++ [⟨"stream.end", requestID,
                    (Push (directStream buf
                        (if payload.sessionID = "" then c.sessionID
                         else payload.sessionID)
                        requestID env.proxyChunks now).2
                      (if payload.sessionID = "" then c.sessionID
                       else payload.sessionID)
                      ⟨0, "stream.end", requestID, "", 0⟩ now).1,
                    SPayload.nullP⟩] := by
          simp [handlePrompt, hemp, hm, hA, hS]
        rintro ⟨hf, -⟩
        rw [hres] at hf
        have hlen := congrArg List.length hf
        simp only [List.length_append, List.length_cons, List.length_nil] at hlen
        have hnil : (directStream buf
            (if payload.sessionID = "" then c.sessionID else payload.sessionID)
            requestID env.proxyChunks now).1 = [] := by
          apply List.length_eq_zero.mp
          omega
        rw [hnil, List.nil_append] at hf
        have hx := (List.cons_eq_cons.mp hf).1
        have hmt : ("stream.end" : String) = "error" := congrArg ServerMsg.mtype hx
        exact absurd hmt (by decide)
  · have hres : (handlePrompt env c buf requestID payload now).frames
        = [errFrame requestID "Invalid session ID format"] := by
      simp [handlePrompt, hemp, hm]
    rintro ⟨hf, -⟩
    rw [hres] at hf
    have hx := (List.cons_eq_cons.mp hf).1
    exact absurd (errFrame_msg_eq hx) (by decide)

/-- C9: a prompt frame with an empty payload `sessionId` is handled exactly
as if it carried the connection's current-session hint; the
"No session ID provided" error frame is sent with nothing forwarded if and
only if both the payload `sessionId` and the hint are empty; and the hint is
set by a successful direct-mode `session.create` on the same connection. -/
theorem C9_empty_session_hint (env : ServerEnv) (c : ClientConn)
    (buf : RedisState) (requestID : String) (now : Int) :
    (∀ content, c.sessionID = "" →
      handlePrompt env c buf requestID ⟨"", content⟩ now
        = ⟨[errFrame requestID "No session ID provided"], buf, none⟩) ∧
    (∀ content, handlePrompt env c buf requestID ⟨"", content⟩ now
        = handlePrompt env c buf requestID ⟨c.sessionID, content⟩ now) ∧
    (∀ payload : PromptPayload,
      ((handlePrompt env c buf requestID payload now).frames
          = [errFrame requestID "No session ID provided"] ∧
        (handlePrompt env c buf requestID payload now).forwarded = none)
        ↔ (payload.sessionID = "" ∧ c.sessionID = "")) ∧
    (∀ title directory sid, env.agentAvailable = none →
      env.proxyHealthy = true → env.proxyCreate = some sid →
      (handleSessionCreate env c requestID title directory).conn.sessionID = sid) := by
  refine ⟨?_, ?_, ?_, ?_⟩
  · intro content hc
    simp [handlePrompt, hc]
  · intro content
    by_cases hc : c.sessionID = "" <;> simp [handlePrompt, hc]
  · intro payload
    constructor
    · rintro ⟨hf, hfwd⟩
      by_cases hemp : (if payload.sessionID = "" then c.sessionID
          else payload.sessionID) = ""
      · by_cases hp : payload.sessionID = ""
        · rw [if_pos hp] at hemp
          exact ⟨hp, hemp⟩
        · rw [if_neg hp] at hemp
          exact absurd hemp hp
      · exact absurd ⟨hf, hfwd⟩
          (handlePrompt_reject_aux env c buf requestID payload now hemp)
    · rintro ⟨hp, hc⟩
      constructor
      · simp [handlePrompt, hp, hc]
      · simp [handlePrompt, hp, hc]
  · intro title directory sid hA hH hC
    simp [handleSessionCreate, hA, hH, hC]

/-- Witness for C9 at concrete inputs: empty hint and empty payload yield
the rejection; a direct-mode `session.create` returning "ses_new" stores it
as the hint. -/
theorem C9_empty_session_hint_witness :
    (⟨"", 0⟩ : ClientConn).sessionID = "" ∧
    handlePrompt ⟨none, false, "", false, [], true, some "ses_new", "", [], none⟩
        ⟨"", 0⟩ RedisState.empty "r1" ⟨"", "hi"⟩ 0
      = ⟨[errFrame "r1" "No session ID provided"], RedisState.empty, none⟩ ∧
    (⟨none, false, "", false, [], true, some "ses_new", "", [], none⟩
        : ServerEnv).agentAvailable = none ∧
    (handleSessionCreate
        ⟨none, false, "", false, [], true, some "ses_new", "", [], none⟩
        ⟨"", 0⟩ "r1" "T" "/p").conn.sessionID = "ses_new" := by
  obtain ⟨h1, h2, h3, h4⟩ := C9_empty_session_hint
    ⟨none, false, "", false, [], true, some "ses_new", "", [], none⟩
    ⟨"", 0⟩ RedisState.empty "r1" 0
  exact ⟨rfl, h1 "hi" rfl, rfl, h4 "T" "/p" "ses_new" rfl rfl rfl⟩

end OpenVibe
